import Mathlib

/- Shallow embedding of the computer-use agent core of this repository:
   packages/enterprise/src/computer-use/cua_claude.py (parser, executor, loop),
   packages/enterprise/src/computer-use/cua.py (CLI startup checks), and
   packages/enterprise/src/computer-use/backends/pyautogui_backend.py (scroll).
   Text is modelled as `List Char`; Python dicts as ordered association lists;
   fallible Python code as `Except`/`Option`. -/

/-- Character list of a string literal. -/
def strL (s : String) : List Char := s.data

/-- Python str.lower, applied character by character (faithful on ASCII). -/
def lowerL (s : List Char) : List Char := s.map Char.toLower

/-- Python substring test `pat in s`. -/
def containsSub (s pat : List Char) : Bool := s.tails.any (fun t => pat.isPrefixOf t)

/-- The ASCII part of the Python regex character class \s. -/
def isSpaceRe (c : Char) : Bool :=
  c == ' ' || c == '\t' || c == '\n' || c == '\r' || c == '\x0b' || c == '\x0c'

/-- Whitespace accepted between tokens by json.loads. -/
def jsonWsCh (c : Char) : Bool := c == ' ' || c == '\t' || c == '\n' || c == '\r'

/-- Numeric value of a decimal digit character. -/
def digitVal (c : Char) : Nat := c.toNat - 48

/-- Value of a decimal digit string, as computed by Python int() on the regex group. -/
def digitsToNat (ds : List Char) : Nat := ds.foldl (fun n c => 10 * n + digitVal c) 0

/-- Values appearing in the dicts produced by parse_action: JSON scalars
decoded by json.loads plus the strings/ints placed by the heuristic branches. -/
inductive PyVal where
  | str (s : List Char)
  | int (n : Int)
  | bool (b : Bool)
  | null
  deriving DecidableEq, Repr

/-- A Python dict as an ordered association list (insertion order). -/
abbrev PyDict := List (List Char × PyVal)

/-- Python dict lookup; a later binding for the same key wins, as in dict
construction from a pair sequence. -/
def dictGet (d : PyDict) (k : List Char) : Option PyVal :=
  d.foldl (fun acc p => if p.1 = k then some p.2 else acc) none

/-- Python dict.get(k, default). -/
def getD (v : Option PyVal) (dflt : PyVal) : PyVal := v.getD dflt

/-- Python truthiness of a value. -/
def truthy : PyVal → Bool
  | .str s => !s.isEmpty
  | .int n => n != 0
  | .bool b => b
  | .null => false

/-- The literal text "action" in double quotes, required inside the brace block
by the extraction regex in parse_action (cua_claude.py:123). -/
def actionPat : List Char := strL "\"action\""

/-- Split a text at its first brace character (either kind). -/
def braceSplit : List Char → List Char × List Char
  | [] => ([], [])
  | c :: cs =>
    if c = '\x7b' ∨ c = '\x7d' then ([], c :: cs)
    else
      let p := braceSplit cs
      (c :: p.1, p.2)

/-- re.search of the extraction regex of cua_claude.py:123 over the reply text:
an opening brace, non-brace characters containing the quoted word action, then
a closing brace; the leftmost such block is returned whole. -/
def jsonFind : List Char → Option (List Char)
  | [] => none
  | c :: cs =>
    if c = '\x7b' then
      match braceSplit cs with
      | (inner, d :: _) =>
        if d = '\x7d' && containsSub inner actionPat then
          some ('\x7b' :: inner ++ ['\x7d'])
        else jsonFind cs
      | (_, []) => none
    else jsonFind cs

/-- Match the fragment digits, separators, digits at the head of a text: a
maximal nonempty digit run, a maximal nonempty run of commas/whitespace, then
a digit run, as the backtracking of the click regex resolves it. -/
def numSepNum (s : List Char) : Option (Nat × Nat) :=
  let p1 := s.span Char.isDigit
  if p1.1.isEmpty then none else
  let p2 := p1.2.span (fun c => c == ',' || isSpaceRe c)
  if p2.1.isEmpty then none else
  let p3 := p2.2.span Char.isDigit
  if p3.1.isEmpty then none else
  some (digitsToNat p1.1, digitsToNat p3.1)

/-- The lazy dot-star of the click regex: try the numeric tail at each
position, never crossing a newline (the pattern is compiled without DOTALL). -/
def clickTail : List Char → Option (Nat × Nat)
  | [] => none
  | c :: cs =>
    match numSepNum (c :: cs) with
    | some r => some r
    | none => if c = '\n' then none else clickTail cs

/-- re.search of the click regex of cua_claude.py:137 over the lowered text. -/
def findClick : List Char → Option (Nat × Nat)
  | [] => none
  | c :: cs =>
    if (strL "click").isPrefixOf (c :: cs) then
      match clickTail ((c :: cs).drop 5) with
      | some r => some r
      | none => findClick cs
    else findClick cs

/-- The tail of the type regex after the literal: separators, then a
double-quoted nonempty string; returns the quoted content. -/
def typeTail (s : List Char) : Option (List Char) :=
  let p1 := s.span (fun c => c == ':' || isSpaceRe c)
  if p1.1.isEmpty then none else
  match p1.2 with
  | '"' :: r2 =>
    let p2 := r2.span (fun c => !(c == '"'))
    if p2.1.isEmpty then none else
    match p2.2 with
    | '"' :: _ => some p2.1
    | _ => none
  | _ => none

/-- re.search of the type regex of cua_claude.py:146 over the original text. -/
def findType : List Char → Option (List Char)
  | [] => none
  | c :: cs =>
    if (strL "type").isPrefixOf (c :: cs) then
      match typeTail ((c :: cs).drop 4) with
      | some r => some r
      | none => findType cs
    else findType cs

/-- The character class of the key regex group: lowercase letters and plus. -/
def keyChar (c : Char) : Bool := ('a' ≤ c && c ≤ 'z') || c == '+'

/-- The tail of the key regex after the literal: separators then a maximal
nonempty run of key characters. -/
def keyTail (s : List Char) : Option (List Char) :=
  let p1 := s.span (fun c => c == ':' || isSpaceRe c)
  if p1.1.isEmpty then none else
  let p2 := p1.2.span keyChar
  if p2.1.isEmpty then none else some p2.1

/-- re.search of the key regex of cua_claude.py:151 over the lowered text. -/
def findKey : List Char → Option (List Char)
  | [] => none
  | c :: cs =>
    if (strL "press").isPrefixOf (c :: cs) then
      match keyTail ((c :: cs).drop 5) with
      | some r => some r
      | none => findKey cs
    else findKey cs

/-- States of the flat-JSON-object decoder used to model json.loads on the
brace blocks the extraction regex can produce (which contain no nested
braces). -/
inductive JState where
  | firstKey
  | expectKey
  | inKey (acc : List Char)
  | expectColon (k : List Char)
  | expectVal (k : List Char)
  | inStr (k : List Char) (acc : List Char)
  | inNum (k : List Char) (n : Nat) (neg : Bool)
  | inZero (k : List Char) (neg : Bool)
  | inWord (k : List Char) (pending : List Char) (v : PyVal)
  | afterVal

/-- One-character-at-a-time decoder for a flat JSON object body. Integers
follow the JSON grammar: a leading zero admits no further digits (json.loads
rejects 01), while -0 decodes to 0 as Python does. Unsupported JSON (string
escapes, floats, exponents, arrays, nested objects) decodes to none, as does
any malformed input, mirroring a json.JSONDecodeError. -/
def jmem : JState → PyDict → List Char → Option PyDict
  | .firstKey, d, c :: cs =>
    if jsonWsCh c then jmem .firstKey d cs
    else if c = '"' then jmem (.inKey []) d cs
    else if c = '\x7d' then (if cs.isEmpty then some d else none)
    else none
  | .expectKey, d, c :: cs =>
    if jsonWsCh c then jmem .expectKey d cs
    else if c = '"' then jmem (.inKey []) d cs
    else none
  | .inKey acc, d, c :: cs =>
    if c = '"' then jmem (.expectColon acc.reverse) d cs
    else if c = '\\' then none
    else jmem (.inKey (c :: acc)) d cs
  | .expectColon k, d, c :: cs =>
    if jsonWsCh c then jmem (.expectColon k) d cs
    else if c = ':' then jmem (.expectVal k) d cs
    else none
  | .expectVal k, d, c :: cs =>
    if jsonWsCh c then jmem (.expectVal k) d cs
    else if c = '"' then jmem (.inStr k []) d cs
    else if c = 't' then jmem (.inWord k (strL "rue") (.bool true)) d cs
    else if c = 'f' then jmem (.inWord k (strL "alse") (.bool false)) d cs
    else if c = 'n' then jmem (.inWord k (strL "ull") .null) d cs
    else if c = '-' then
      match cs with
      | c2 :: cs2 =>
        if c2 = '0' then jmem (.inZero k true) d cs2
        else if c2.isDigit then jmem (.inNum k (digitVal c2) true) d cs2
        else none
      | [] => none
    else if c = '0' then jmem (.inZero k false) d cs
    else if c.isDigit then jmem (.inNum k (digitVal c) false) d cs
    else none
  | .inStr k acc, d, c :: cs =>
    if c = '"' then jmem .afterVal (d ++ [(k, .str acc.reverse)]) cs
    else if c = '\\' then none
    else jmem (.inStr k (c :: acc)) d cs
  | .inNum k n neg, d, c :: cs =>
    if c.isDigit then jmem (.inNum k (10 * n + digitVal c) neg) d cs
    else
      let v : PyVal := .int (if neg then -(n : Int) else (n : Int))
      if c = ',' then jmem .expectKey (d ++ [(k, v)]) cs
      else if c = '\x7d' then (if cs.isEmpty then some (d ++ [(k, v)]) else none)
      else if jsonWsCh c then jmem .afterVal (d ++ [(k, v)]) cs
      else none
  | .inZero k _, d, c :: cs =>
    if c.isDigit then none
    else if c = ',' then jmem .expectKey (d ++ [(k, .int 0)]) cs
    else if c = '\x7d' then (if cs.isEmpty then some (d ++ [(k, .int 0)]) else none)
    else if jsonWsCh c then jmem .afterVal (d ++ [(k, .int 0)]) cs
    else none
  | .inWord k [p] v, d, c :: cs =>
    if c = p then jmem .afterVal (d ++ [(k, v)]) cs else none
  | .inWord k (p :: ps) v, d, c :: cs =>
    if c = p then jmem (.inWord k ps v) d cs else none
  | .inWord _ [] _, _, _ => none
  | .afterVal, d, c :: cs =>
    if jsonWsCh c then jmem .afterVal d cs
    else if c = ',' then jmem .expectKey d cs
    else if c = '\x7d' then (if cs.isEmpty then some d else none)
    else none
  | _, _, [] => none

/-- Model of json.loads restricted to the flat objects the extraction regex
can hand it. -/
def jsonLoadsFlat : List Char → Option PyDict
  | '\x7b' :: rest => jmem .firstKey [] rest
  | _ => none

/-- The whole structured-extraction step of parse_action: find the regex
match, then decode it; none both when no block is found and when decoding
fails (the code falls through to the heuristics in either case). -/
def jsonStep (s : List Char) : Option PyDict := (jsonFind s).bind jsonLoadsFlat

/-- The completion-heuristic condition of cua_claude.py:133 on the lowered
text, with Python operator precedence made explicit: task-complete present,
or done present and click absent. -/
def doneCondition (l : List Char) : Bool :=
  containsSub l (strL "task complete") ||
    (containsSub l (strL "done") && !containsSub l (strL "click"))

/-- The heuristic chain of parse_action (cua_claude.py:130-155). -/
def heuristics (s : List Char) : PyDict :=
  let l := lowerL s
  if doneCondition l then
    [(strL "action", .str (strL "done")), (strL "reason", .str s)]
  else match findClick l with
  | some xy =>
    [(strL "action", .str (strL "click")), (strL "x", .int xy.1), (strL "y", .int xy.2)]
  | none =>
    match findType s with
    | some t => [(strL "action", .str (strL "type")), (strL "text", .str t)]
    | none =>
      match findKey l with
      | some k => [(strL "action", .str (strL "key")), (strL "key", .str k)]
      | none => [(strL "action", .str (strL "unknown")), (strL "raw", .str s)]

/-- parse_action (cua_claude.py:117-155): structured extraction first, then
the heuristic chain; total by construction, as the Python function catches
its only possible exception (the JSON decode error). -/
def parse_action (s : List Char) : PyDict :=
  match jsonFind s with
  | some block =>
    match jsonLoadsFlat block with
    | some d => d
    | none => heuristics s
  | none => heuristics s

/-- The backend invocations (CUAHelper subprocess calls) an action execution
can issue; coordinate/button arguments keep their Python values, since the
code passes them through str(). -/
inductive BackendCall where
  | click (x y button : PyVal)
  | typeText (t : List Char)
  | key (k : List Char)
  | scroll (x y delta : PyVal)
  deriving DecidableEq, Repr

/-- The exceptions execute_action can raise: a missing dict field, a
subprocess argument of the wrong type, a negative sleep, and a failed helper
invocation (subprocess check=True). -/
inductive PyErr where
  | keyError (k : List Char)
  | typeError
  | valueError
  | backendError
  deriving DecidableEq, Repr

/-- action.get("action", "unknown") of cua_claude.py:160. -/
def action_type (a : PyDict) : PyVal := getD (dictGet a (strL "action")) (.str (strL "unknown"))

/-- Python unary minus on a value (defined for int and bool only). -/
def pyNeg : PyVal → Option PyVal
  | .int n => some (.int (-n))
  | .bool b => some (.int (-(if b then (1 : Int) else 0)))
  | _ => none

/-- execute_action (cua_claude.py:158-200), with the backend modelled as an
oracle saying whether each helper invocation succeeds. Returns the
continue/stop flag together with the list of backend calls issued, or the
exception raised. The prints are side-effect free here. -/
def execute_action (be : BackendCall → Bool) (a : PyDict) :
    Except PyErr (Bool × List BackendCall) :=
  let t := action_type a
  if t = .str (strL "done") then .ok (false, [])
  else if t = .str (strL "click") then
    match dictGet a (strL "x"), dictGet a (strL "y") with
    | none, _ => .error (.keyError (strL "x"))
    | some _, none => .error (.keyError (strL "y"))
    | some x, some y =>
      match getD (dictGet a (strL "button")) (.str (strL "left")) with
      | .str b =>
        let c := BackendCall.click x y (.str b)
        if be c then
          if truthy (getD (dictGet a (strL "double")) (.bool false)) then
            if be c then .ok (true, [c, c]) else .error .backendError
          else .ok (true, [c])
        else .error .backendError
      | _ => .error .typeError
  else if t = .str (strL "type") then
    match dictGet a (strL "text") with
    | none => .error (.keyError (strL "text"))
    | some (.str txt) =>
      let c := BackendCall.typeText txt
      if be c then .ok (true, [c]) else .error .backendError
    | some _ => .error .typeError
  else if t = .str (strL "key") then
    match dictGet a (strL "key") with
    | none => .error (.keyError (strL "key"))
    | some (.str k) =>
      let c := BackendCall.key k
      if be c then .ok (true, [c]) else .error .backendError
    | some _ => .error .typeError
  else if t = .str (strL "scroll") then
    let x := getD (dictGet a (strL "x")) (.int 1280)
    let y := getD (dictGet a (strL "y")) (.int 540)
    let dir := getD (dictGet a (strL "direction")) (.str (strL "down"))
    let amount := getD (dictGet a (strL "amount")) (.int 3)
    match (if dir = .str (strL "down") then pyNeg amount else some amount) with
    | none => .error .typeError
    | some delta =>
      let c := BackendCall.scroll x y delta
      if be c then .ok (true, [c]) else .error .backendError
  else if t = .str (strL "wait") then
    match getD (dictGet a (strL "ms")) (.int 1000) with
    | .int n => if 0 ≤ n then .ok (true, []) else .error .valueError
    | .bool _ => .ok (true, [])
    | _ => .error .typeError
  else .ok (true, [])

/-- The delta computation of the scroll function in cua_claude.py:73-76:
delta = -amount if direction == "down" else amount. -/
def scroll_delta (direction : List Char) (amount : Int) : Int :=
  if direction = strL "down" then -amount else amount

/-- The signed amount computed by scroll in
backends/pyautogui_backend.py:150-171: -abs(amount) for down and right,
abs(amount) otherwise. -/
def pg_scroll_amount (direction : List Char) (amount : Int) : Int :=
  if direction = strL "down" ∨ direction = strL "right" then -(amount.natAbs : Int)
  else (amount.natAbs : Int)

/-- The terminal situations of run_cua_loop: execute_action returned false
(task reported complete), the step range was exhausted, an exception caught
by the per-step handler broke the loop, or an exception escaped the loop
(the screenshot call sits outside the try block). -/
inductive LoopState where
  | Done
  | Exhausted
  | Failed
  | Crashed
  deriving DecidableEq, Repr

/-- Outcome of the loop: terminal situation, number of screenshot attempts,
number of model calls issued. -/
structure LoopResult where
  state : LoopState
  screenshots : Nat
  modelCalls : Nat
  deriving DecidableEq, Repr

/-- The collaborators of one loop run: whether the helper executable exists
(take_screenshot and all backend calls go through it), the model reply per
step (or a model-call failure), and the per-invocation backend success. -/
structure Env where
  helperPresent : Bool
  replies : Nat → Except Unit (List Char)
  backend : BackendCall → Bool

/-- One iteration of run_cua_loop (cua_claude.py:235-300) and the remaining
fuel of the step range: screenshot first (outside the try block, so its
failure escapes the function), then the model call, parse, and execute inside
the try block whose except clause breaks the loop. -/
def loopAux (env : Env) : Nat → Nat → LoopResult
  | _, 0 => ⟨.Exhausted, 0, 0⟩
  | step, fuel + 1 =>
    if env.helperPresent then
      match env.replies step with
      | .error _ => ⟨.Failed, 1, 1⟩
      | .ok text =>
        match execute_action env.backend (parse_action text) with
        | .error _ => ⟨.Failed, 1, 1⟩
        | .ok (false, _) => ⟨.Done, 1, 1⟩
        | .ok (true, _) =>
          let r := loopAux env (step + 1) fuel
          ⟨r.state, r.screenshots + 1, r.modelCalls + 1⟩
    else ⟨.Crashed, 1, 0⟩

/-- run_cua_loop (cua_claude.py:226-303). -/
def run_cua_loop (env : Env) (maxSteps : Nat) : LoopResult := loopAux env 0 maxSteps

/-- main of cua_claude.py:306-322: the only precondition checked before the
loop is the API key; a missing key exits before any step, and nothing else is
checked at startup. -/
def cua_claude_main (apiKeyPresent : Bool) (env : Env) (maxSteps : Nat) :
    Except Unit LoopResult :=
  if apiKeyPresent then .ok (run_cua_loop env maxSteps) else .error ()

/-- Outcomes of main in cua.py. -/
inductive CuaPyOutcome where
  | printedHelp
  | exitMissingHelper
  | ran
  deriving DecidableEq, Repr

/-- main of cua.py:105-158: with a command given, the existence of the helper
executable is checked before dispatching, and its absence exits with an error
before any helper invocation. -/
def cua_py_main (hasCommand helperExists : Bool) : CuaPyOutcome :=
  if !hasCommand then .printedHelp
  else if !helperExists then .exitMissingHelper
  else .ran

/-- A valid JSON unsigned integer literal: a nonempty digit string with no
leading zero unless it is exactly the single digit 0. -/
def jsonIntLit : List Char → Bool
  | [] => false
  | c :: cs => c.isDigit && cs.all (fun x => x.isDigit) && (!(c == '0') || cs.isEmpty)

/-- The interior of the embedded click object of the structured-extraction
claim, between its braces, with the given digit strings as coordinates. -/
def jInterior (ds1 ds2 : List Char) : List Char :=
  strL "\"action\":\"click\",\"x\":" ++ ds1 ++ strL ",\"y\":" ++ ds2

/-- The embedded-in-prose click object of the structured-extraction claim:
the brace block with the given digit strings as coordinates. -/
def clickObj (ds1 ds2 : List Char) : List Char :=
  '\x7b' :: (jInterior ds1 ds2 ++ ['\x7d'])

/-- Reply text of the C1 counterexample: a decodable click object followed by
the words task complete. -/
def c1text : List Char := strL "\x7b\"action\":\"click\",\"x\":1,\"y\":2\x7d task complete"

/-- Reply text of the C2 counterexample. -/
def c2text : List Char := strL "click done task complete"

/-- Reply text of the C5 counterexample: prose mentioning the action schema
in braces before a perfectly valid embedded click object. -/
def c5text : List Char :=
  strL "per the schema \x7b\"action\": <name>\x7d I will use \x7b\"action\":\"click\",\"x\":1,\"y\":2\x7d"

/-- Reply text whose parsed action is a structured click missing its x field. -/
def c10text : List Char := strL "\x7b\"action\":\"click\",\"y\":2\x7d"

/-- When the structured-extraction step yields nothing (no regex match, or a
decode failure), parse_action is the heuristic chain. -/
theorem parse_action_eq_heuristics (s : List Char) (h : jsonStep s = none) :
    parse_action s = heuristics s := by
  unfold parse_action
  unfold jsonStep at h
  cases hf : jsonFind s with
  | none => rfl
  | some b =>
    rw [hf] at h
    change jsonLoadsFlat b = none at h
    simp only [h]

/-- C3 counterexample: the claim says direction right negates the magnitude at
execution, but the scroll helper of cua_claude.py negates only for down, so
scroll(direction=right, amount=3) reaches the backend with delta 3, not -3;
moreover down with amount -3 yields 3, so it is not a negated magnitude
either. -/
theorem c3_counterexample :
    scroll_delta (strL "right") 3 = 3 ∧ scroll_delta (strL "right") 3 ≠ -3 ∧
    scroll_delta (strL "down") (-3) = 3 := by decide

/-- C3 amended: in cua_claude.py only direction down negates the amount and
every other direction (right included) passes it through unchanged, while the
pyautogui backend negates the magnitude for down/right and keeps the positive
magnitude for up/left; in particular scroll down 3 executes with delta -3 and
scroll up 3 with delta 3. -/
theorem c3_amended :
    (∀ a : Int, scroll_delta (strL "down") a = -a) ∧
    (∀ (d : List Char) (a : Int), d ≠ strL "down" → scroll_delta d a = a) ∧
    (∀ a : Int,
      pg_scroll_amount (strL "down") a = -(a.natAbs : Int) ∧
      pg_scroll_amount (strL "right") a = -(a.natAbs : Int) ∧
      pg_scroll_amount (strL "up") a = (a.natAbs : Int) ∧
      pg_scroll_amount (strL "left") a = (a.natAbs : Int)) ∧
    scroll_delta (strL "down") 3 = -3 ∧ scroll_delta (strL "up") 3 = 3 := by
  refine ⟨fun a => ?_, fun d a h => ?_, fun a => ⟨?_, ?_, ?_, ?_⟩, by decide, by decide⟩
  · rw [scroll_delta, if_pos rfl]
  · rw [scroll_delta, if_neg h]
  · rw [pg_scroll_amount, if_pos (by decide)]
  · rw [pg_scroll_amount, if_pos (by decide)]
  · rw [pg_scroll_amount, if_neg (by decide)]
  · rw [pg_scroll_amount, if_neg (by decide)]

/-- C3 amended witness at direction up, amount 7. -/
theorem c3_amended_witness : scroll_delta (strL "up") 7 = 7 :=
  c3_amended.2.1 (strL "up") 7 (by decide)

/-- C4: parse_action is total (it returns a dict on every input; the Python
function catches its only possible exception), and when the structured step,
the completion condition and the three heuristic regexes all fail to match it
returns the unknown action carrying the whole reply text; in particular the
empty string parses to unknown with raw empty. -/
theorem c4_parse_total_fallback :
    (∀ s : List Char, ∃ d : PyDict, parse_action s = d) ∧
    (∀ s : List Char, jsonStep s = none → doneCondition (lowerL s) = false →
      findClick (lowerL s) = none → findType s = none → findKey (lowerL s) = none →
      parse_action s = [(strL "action", .str (strL "unknown")), (strL "raw", .str s)]) ∧
    parse_action (strL "") =
      [(strL "action", .str (strL "unknown")), (strL "raw", .str (strL ""))] := by
  refine ⟨fun s => ⟨parse_action s, rfl⟩, fun s h0 h1 h2 h3 h4 => ?_, by decide⟩
  rw [parse_action_eq_heuristics s h0]
  unfold heuristics
  simp only [h1, h2, h3, h4, Bool.false_eq_true, if_false]

/-- C4 witness at a reply matched by nothing. -/
theorem c4_witness :
    parse_action (strL "x y z") =
      [(strL "action", PyVal.str (strL "unknown")), (strL "raw", PyVal.str (strL "x y z"))] :=
  c4_parse_total_fallback.2.1 _ (by decide) (by decide) (by decide) (by decide) (by decide)

/-- C1 counterexample: the reply holds both a decodable click object and the
words task complete; the structured-extraction step runs first, so
parse_action returns the click action, not done — the claim's regardless of
any other content fails. -/
theorem c1_counterexample :
    containsSub (lowerL c1text) (strL "task complete") = true ∧
    parse_action c1text =
      [(strL "action", .str (strL "click")), (strL "x", .int 1), (strL "y", .int 2)] ∧
    parse_action c1text ≠
      [(strL "action", .str (strL "done")), (strL "reason", .str c1text)] := by decide

/-- C1 amended: for every reply text whose lower-casing contains task
complete and on which the structured-extraction step yields no decoded
object, parse_action returns the done action with reason the full reply
text, regardless of any other content. -/
theorem c1_amended (s : List Char) (h0 : jsonStep s = none)
    (h1 : containsSub (lowerL s) (strL "task complete") = true) :
    parse_action s = [(strL "action", .str (strL "done")), (strL "reason", .str s)] := by
  rw [parse_action_eq_heuristics s h0]
  unfold heuristics
  have hd : doneCondition (lowerL s) = true := by
    unfold doneCondition
    rw [h1, Bool.true_or]
  simp only [hd, if_true]

/-- C1 amended witness. -/
theorem c1_amended_witness :
    parse_action (strL "task complete") =
      [(strL "action", PyVal.str (strL "done")),
       (strL "reason", PyVal.str (strL "task complete"))] :=
  c1_amended _ (by decide) (by decide)

/-- C2 counterexample: a reply containing both click and done also containing
task complete does make the completion heuristic fire (the or short-circuits
before the click exclusion), so the claim's universal reading fails. -/
theorem c2_counterexample :
    containsSub (lowerL c2text) (strL "click") = true ∧
    containsSub (lowerL c2text) (strL "done") = true ∧
    parse_action c2text =
      [(strL "action", .str (strL "done")), (strL "reason", .str c2text)] := by decide

/-- C2 amended: on any lowered text containing click but not task complete,
the completion condition is false, so step 2 never fires and parsing falls
through to the later heuristics; in particular click done parses as unknown
(the click heuristic finds no coordinates), not as done. -/
theorem c2_amended :
    (∀ l : List Char, containsSub l (strL "click") = true →
      containsSub l (strL "task complete") = false → doneCondition l = false) ∧
    parse_action (strL "click done") =
      [(strL "action", .str (strL "unknown")), (strL "raw", .str (strL "click done"))] := by
  refine ⟨fun l h1 h2 => ?_, by decide⟩
  unfold doneCondition
  rw [h1, h2]
  simp

/-- C2 amended witness. -/
theorem c2_amended_witness : doneCondition (strL "click here") = false :=
  c2_amended.1 _ (by decide) (by decide)

/-- C6: execute_action returns false exactly when the action kind is done
(any normal return r has r.1 = false iff the kind is done, and a done action
always returns false without touching the backend); every unrecognized kind,
unknown included, falls to the final else branch and returns true with no
backend call. -/
theorem c6_execute_stop_iff_done :
    (∀ (be : BackendCall → Bool) (a : PyDict) (r : Bool × List BackendCall),
      execute_action be a = .ok r → (r.1 = false ↔ action_type a = .str (strL "done"))) ∧
    (∀ (be : BackendCall → Bool) (a : PyDict),
      action_type a = .str (strL "done") → execute_action be a = .ok (false, [])) ∧
    (∀ (be : BackendCall → Bool) (a : PyDict),
      action_type a ≠ .str (strL "done") → action_type a ≠ .str (strL "click") →
      action_type a ≠ .str (strL "type") → action_type a ≠ .str (strL "key") →
      action_type a ≠ .str (strL "scroll") → action_type a ≠ .str (strL "wait") →
      execute_action be a = .ok (true, [])) := by
  refine ⟨fun be a r h => ?_, fun be a h => ?_, fun be a h1 h2 h3 h4 h5 h6 => ?_⟩
  · simp only [execute_action] at h
    repeat' split at h
    all_goals (try cases h)
    all_goals simp_all
  · simp [execute_action, h]
  · simp [execute_action, h1, h2, h3, h4, h5, h6]

/-- C6 witness: an unrecognized kind is a logged no-op returning true. -/
theorem c6_witness :
    execute_action (fun _ => true) [(strL "action", PyVal.str (strL "flip"))] =
      .ok (true, []) :=
  c6_execute_stop_iff_done.2.2 (fun _ => true) _ (by decide) (by decide) (by decide)
    (by decide) (by decide) (by decide)

/-- C7: once the loop reaches a step whose model call fails, or whose parsed
action's execution raises, it stops at once in the Failed state: exactly the
one screenshot already taken this step and the one model call, no retry and
no further iterations regardless of the remaining budget. -/
theorem c7_step_failure_is_fatal :
    ∀ (env : Env) (step fuel : Nat), env.helperPresent = true → 0 < fuel →
      (env.replies step = .error () ∨
        ∃ t e, env.replies step = .ok t ∧
          execute_action env.backend (parse_action t) = .error e) →
      loopAux env step fuel = ⟨.Failed, 1, 1⟩ ∧
        (step = 0 → run_cua_loop env fuel = ⟨.Failed, 1, 1⟩) := by
  intro env step fuel hh hf hd
  obtain ⟨k, rfl⟩ : ∃ k, fuel = k + 1 := ⟨fuel - 1, by omega⟩
  have hmain : loopAux env step (k + 1) = ⟨.Failed, 1, 1⟩ := by
    simp only [loopAux, hh, if_true]
    rcases hd with h | ⟨t, e, ht, he⟩
    · simp [h]
    · simp [ht, he]
  refine ⟨hmain, fun h0 => ?_⟩
  subst h0
  exact hmain

/-- C7 witness: a backend click failure at step 0 with budget left. -/
theorem c7_witness :
    loopAux ⟨true, fun _ => .ok (strL "click 1, 2"), fun _ => false⟩ 0 5 =
      ⟨.Failed, 1, 1⟩ :=
  (c7_step_failure_is_fatal ⟨true, fun _ => .ok (strL "click 1, 2"), fun _ => false⟩ 0 5
    rfl (by decide) (Or.inr ⟨strL "click 1, 2", .backendError, rfl, rfl⟩)).1

/-- The loop issues at most one model call and one screenshot per remaining
step of the budget. -/
theorem loopAux_counts_le (env : Env) (fuel : Nat) :
    ∀ step, (loopAux env step fuel).modelCalls ≤ fuel ∧
      (loopAux env step fuel).screenshots ≤ fuel := by
  induction fuel with
  | zero => intro step; simp [loopAux]
  | succ k ih =>
    intro step
    unfold loopAux
    by_cases hh : env.helperPresent
    · rw [if_pos hh]
      cases hr : env.replies step with
      | error e => simp
      | ok t =>
        cases he : execute_action env.backend (parse_action t) with
        | error e => simp [he]
        | ok p =>
          obtain ⟨b, calls⟩ := p
          cases b
          · simp [he]
          · have h1 := (ih (step + 1)).1
            have h2 := (ih (step + 1)).2
            simp only [he]
            refine ⟨?_, ?_⟩ <;> simp <;> omega
    · rw [if_neg hh]
      simp

/-- C8: run_cua_loop is bounded by max_steps as a hard iteration cap — at
most max_steps model calls and screenshots in total, hence at most one model
call per iteration — and with max_steps 1 and a non-terminal click reply the
loop stops after exactly one model call in the Exhausted state, not Done. -/
theorem c8_budget_and_exhausted :
    (∀ (env : Env) (n : Nat),
      (run_cua_loop env n).modelCalls ≤ n ∧ (run_cua_loop env n).screenshots ≤ n) ∧
    run_cua_loop ⟨true, fun _ => .ok (strL "click 120, 340"), fun _ => true⟩ 1 =
      ⟨.Exhausted, 1, 1⟩ := by
  exact ⟨fun env n => loopAux_counts_le env n 0, by decide⟩

/-- C9 counterexample: with the helper executable absent (and the API key
present), main of cua_claude.py does not fail at startup: the loop is
entered and a screenshot is attempted inside step 1 — one step runs — and the
failure is an uncaught exception escaping the loop, not a reported
precondition error before the loop. -/
theorem c9_counterexample :
    cua_claude_main true ⟨false, fun _ => .ok (strL "x"), fun _ => true⟩ 15 =
      .ok ⟨.Crashed, 1, 0⟩ ∧
    (⟨.Crashed, 1, 0⟩ : LoopResult).screenshots ≠ 0 := ⟨rfl, by decide⟩

/-- C9 amended: only the CLI tool cua.py checks for the helper executable
before running a command and exits with the missing-backend error before any
helper invocation; cua_claude.py checks only the API-key precondition at
startup, and a missing helper surfaces as an uncaught exception at the first
screenshot of step 1, after the loop has started. -/
theorem c9_amended :
    cua_py_main true false = .exitMissingHelper ∧
    (∀ (env : Env) (n : Nat), cua_claude_main false env n = .error ()) ∧
    (∀ (re : Nat → Except Unit (List Char)) (be : BackendCall → Bool) (n : Nat),
      0 < n → run_cua_loop ⟨false, re, be⟩ n = ⟨.Crashed, 1, 0⟩) := by
  refine ⟨rfl, fun env n => rfl, fun re be n hn => ?_⟩
  obtain ⟨k, rfl⟩ : ∃ k, n = k + 1 := ⟨n - 1, by omega⟩
  rw [run_cua_loop]
  unfold loopAux
  rw [if_neg (by simp)]

/-- C9 amended witness. -/
theorem c9_amended_witness :
    run_cua_loop ⟨false, fun _ => .ok [], fun _ => true⟩ 3 = ⟨.Crashed, 1, 0⟩ :=
  c9_amended.2.2 _ _ 3 (by decide)

/-- C10: a structured click action lacking x (or lacking y, and likewise a
type action lacking text or a key action lacking key) makes execute_action
raise a KeyError instead of defaulting or degrading to unknown; inside
run_cua_loop that exception ends the whole task at that step (Failed, no
further iterations), as witnessed by a reply whose JSON click has no x. -/
theorem c10_missing_field_keyerror :
    (∀ (be : BackendCall → Bool) (a : PyDict),
      action_type a = .str (strL "click") → dictGet a (strL "x") = none →
      execute_action be a = .error (.keyError (strL "x"))) ∧
    (∀ (be : BackendCall → Bool) (a : PyDict) (x : PyVal),
      action_type a = .str (strL "click") → dictGet a (strL "x") = some x →
      dictGet a (strL "y") = none →
      execute_action be a = .error (.keyError (strL "y"))) ∧
    (∀ (be : BackendCall → Bool) (a : PyDict),
      action_type a = .str (strL "type") → dictGet a (strL "text") = none →
      execute_action be a = .error (.keyError (strL "text"))) ∧
    (∀ (be : BackendCall → Bool) (a : PyDict),
      action_type a = .str (strL "key") → dictGet a (strL "key") = none →
      execute_action be a = .error (.keyError (strL "key"))) ∧
    (∀ (be : BackendCall → Bool) (fuel : Nat),
      run_cua_loop ⟨true, fun _ => .ok c10text, be⟩ (fuel + 1) = ⟨.Failed, 1, 1⟩) := by
  have hclick : ∀ (be : BackendCall → Bool) (a : PyDict),
      action_type a = .str (strL "click") → dictGet a (strL "x") = none →
      execute_action be a = .error (.keyError (strL "x")) := by
    intro be a h1 h2
    simp +decide [execute_action, h1, h2]
  refine ⟨hclick, fun be a x h1 h2 h3 => ?_, fun be a h1 h2 => ?_,
    fun be a h1 h2 => ?_, fun be fuel => ?_⟩
  · simp +decide [execute_action, h1, h2, h3]
  · simp +decide [execute_action, h1, h2]
  · simp +decide [execute_action, h1, h2]
  · have hp : parse_action c10text =
        [(strL "action", .str (strL "click")), (strL "y", .int 2)] := by decide
    have he := hclick be (parse_action c10text) (by rw [hp]; decide) (by rw [hp]; decide)
    rw [run_cua_loop]
    simp only [loopAux]
    simp [he]

/-- C10 witness: a click dict with no x raises KeyError x. -/
theorem c10_witness :
    execute_action (fun _ => true) [(strL "action", PyVal.str (strL "click"))] =
      .error (.keyError (strL "x")) :=
  c10_missing_field_keyerror.1 (fun _ => true) _ (by decide) (by decide)

/-- A pattern that is a prefix of a text is a substring of it. -/
theorem containsSub_of_prefix (s pat : List Char) (h : pat.isPrefixOf s = true) :
    containsSub s pat = true := by
  unfold containsSub
  rw [List.any_eq_true]
  exact ⟨s, (List.mem_tails s s).mpr (List.suffix_refl s), h⟩

/-- The extraction-regex search skips any prefix free of opening braces. -/
theorem jsonFind_skip (p r : List Char) (h : ∀ c ∈ p, c ≠ '\x7b') :
    jsonFind (p ++ r) = jsonFind r := by
  induction p with
  | nil => rfl
  | cons c cs ih =>
    have hc : c ≠ '\x7b' := h c (List.mem_cons_self c cs)
    rw [List.cons_append]
    conv_lhs => rw [jsonFind]
    rw [if_neg hc]
    exact ih (fun x hx => h x (List.mem_cons_of_mem c hx))

/-- Splitting at the first brace of a brace-free text followed by a closing
brace gives back that text and the rest. -/
theorem braceSplit_clean (xs r : List Char)
    (h : ∀ c ∈ xs, c ≠ '\x7b' ∧ c ≠ '\x7d') :
    braceSplit (xs ++ '\x7d' :: r) = (xs, '\x7d' :: r) := by
  induction xs with
  | nil =>
    rw [List.nil_append]
    unfold braceSplit
    rw [if_pos (Or.inr rfl)]
  | cons c cs ih =>
    have hc := h c (List.mem_cons_self c cs)
    rw [List.cons_append]
    unfold braceSplit
    rw [if_neg (by rcases hc with ⟨h1, h2⟩; rintro (rfl | rfl) <;> simp_all)]
    rw [ih (fun x hx => h x (List.mem_cons_of_mem c hx))]

/-- The extraction regex matches a brace block whose interior is brace-free
and mentions the quoted word action, returning the whole block. -/
theorem jsonFind_obj (inner q : List Char)
    (hcl : ∀ c ∈ inner, c ≠ '\x7b' ∧ c ≠ '\x7d')
    (hact : containsSub inner actionPat = true) :
    jsonFind ('\x7b' :: (inner ++ '\x7d' :: q)) = some ('\x7b' :: inner ++ ['\x7d']) := by
  unfold jsonFind
  rw [if_pos rfl, braceSplit_clean inner q hcl]
  simp [hact]

/-- A decimal digit is none of the delimiter characters the JSON decoder
inspects, nor a brace. -/
theorem digit_facts (c : Char) (h : c.isDigit = true) :
    jsonWsCh c = false ∧ c ≠ '"' ∧ c ≠ 't' ∧ c ≠ 'f' ∧ c ≠ 'n' ∧ c ≠ '-' ∧
    c ≠ '\x7b' ∧ c ≠ '\x7d' ∧ c ≠ ',' := by
  refine ⟨?_, ?_, ?_, ?_, ?_, ?_, ?_, ?_, ?_⟩
  · unfold jsonWsCh
    rcases eq_or_ne c ' ' with rfl | h1
    · exact absurd h (by decide)
    rcases eq_or_ne c '\t' with rfl | h2
    · exact absurd h (by decide)
    rcases eq_or_ne c '\n' with rfl | h3
    · exact absurd h (by decide)
    rcases eq_or_ne c '\r' with rfl | h4
    · exact absurd h (by decide)
    simp [h1, h2, h3, h4]
  all_goals (rintro rfl; exact absurd h (by decide))

/-- At a value position, a nonzero digit starts an open-ended number. -/
theorem jmem_expectVal_digit (k : List Char) (d : PyDict) (c : Char) (cs : List Char)
    (h : c.isDigit = true) (h0 : c ≠ '0') :
    jmem (.expectVal k) d (c :: cs) = jmem (.inNum k (digitVal c) false) d cs := by
  obtain ⟨hws, hq, ht, hf, hn, hm, _, _, _⟩ := digit_facts c h
  conv_lhs => rw [jmem.eq_def]
  simp [hws, hq, ht, hf, hn, hm, h, h0]

/-- At a value position, the digit zero starts a closed number: per the JSON
grammar no further digit may follow it. -/
theorem jmem_expectVal_zero (k : List Char) (d : PyDict) (cs : List Char) :
    jmem (.expectVal k) d ('0' :: cs) = jmem (.inZero k false) d cs := by
  conv_lhs => rw [jmem.eq_def]
  simp +decide

/-- A comma after a lone zero records the pair 0. -/
theorem jmem_inZero_comma (k : List Char) (d : PyDict) (cs : List Char) :
    jmem (.inZero k false) d (',' :: cs) =
      jmem .expectKey (d ++ [(k, .int 0)]) cs := rfl

/-- A final closing brace after a lone zero ends the object with the pair 0. -/
theorem jmem_inZero_close (k : List Char) (d : PyDict) :
    jmem (.inZero k false) d ['\x7d'] = some (d ++ [(k, .int 0)]) := rfl

/-- Inside a number, a run of digits folds into the accumulator. -/
theorem jmem_inNum_run (ds : List Char) (h : ∀ c ∈ ds, c.isDigit = true) :
    ∀ (k : List Char) (n : Nat) (neg : Bool) (d : PyDict) (r : List Char),
    jmem (.inNum k n neg) d (ds ++ r) =
      jmem (.inNum k (ds.foldl (fun m c => 10 * m + digitVal c) n) neg) d r := by
  induction ds with
  | nil => intro k n neg d r; rfl
  | cons c cs ih =>
    intro k n neg d r
    have hc : c.isDigit = true := h c (List.mem_cons_self c cs)
    rw [List.cons_append]
    conv_lhs => rw [jmem.eq_def]
    simp only [hc, if_true]
    rw [ih (fun x hx => h x (List.mem_cons_of_mem c hx))]
    rfl

/-- Folding the digit tail from the first digit's value is the value of the
whole digit string. -/
theorem digitsToNat_cons (c : Char) (ds : List Char) :
    ds.foldl (fun m x => 10 * m + digitVal x) (digitVal c) = digitsToNat (c :: ds) := by
  simp [digitsToNat]

/-- A comma ends a positive number, recording its pair. -/
theorem jmem_inNum_comma (k : List Char) (n : Nat) (d : PyDict) (cs : List Char) :
    jmem (.inNum k n false) d (',' :: cs) =
      jmem .expectKey (d ++ [(k, .int (n : Int))]) cs := by
  simp +decide [jmem]

/-- A final closing brace ends a positive number and the whole object. -/
theorem jmem_inNum_close (k : List Char) (n : Nat) (d : PyDict) :
    jmem (.inNum k n false) d ['\x7d'] = some (d ++ [(k, .int (n : Int))]) := by
  simp +decide [jmem]

/-- The decoder consumes the concrete object head up to the x value. -/
theorem jmem_hop1 (d : PyDict) (z : List Char) :
    jmem .firstKey d (strL "\"action\":\"click\",\"x\":" ++ z) =
      jmem (.expectVal (strL "x")) (d ++ [(strL "action", .str (strL "click"))]) z := rfl

/-- The decoder consumes the concrete y key up to the y value. -/
theorem jmem_hop2 (d : PyDict) (z : List Char) :
    jmem .expectKey d (strL "\"y\":" ++ z) = jmem (.expectVal (strL "y")) d z := rfl

/-- Decomposition of a valid JSON unsigned integer literal. -/
theorem jsonIntLit_facts (ds : List Char) (h : jsonIntLit ds = true) :
    ∃ c t, ds = c :: t ∧ c.isDigit = true ∧ (∀ x ∈ t, x.isDigit = true) ∧
      (c = '0' → t = []) := by
  cases ds with
  | nil => simp [jsonIntLit] at h
  | cons c t =>
    simp only [jsonIntLit, Bool.and_eq_true, Bool.or_eq_true, Bool.not_eq_true',
      beq_eq_false_iff_ne, List.all_eq_true, List.isEmpty_iff] at h
    refine ⟨c, t, rfl, h.1.1, fun x hx => h.1.2 x hx, ?_⟩
    rcases h.2 with hne | hemp
    · exact fun hc => absurd hc hne
    · exact fun _ => hemp

/-- Every character of a valid JSON unsigned integer literal is a digit. -/
theorem jsonIntLit_digits (ds : List Char) (h : jsonIntLit ds = true) :
    ∀ x ∈ ds, x.isDigit = true := by
  obtain ⟨c, t, rfl, hc, ht, -⟩ := jsonIntLit_facts ds h
  intro x hx
  rcases List.mem_cons.mp hx with rfl | hx
  · exact hc
  · exact ht x hx

/-- Decoding a valid integer literal at a value position followed by a comma
records its value and moves on to the next key. -/
theorem jmem_intVal_comma (k : List Char) (d : PyDict) (c : Char) (t cs : List Char)
    (hc : c.isDigit = true) (ht : ∀ x ∈ t, x.isDigit = true) (hz : c = '0' → t = []) :
    jmem (.expectVal k) d (c :: (t ++ ',' :: cs)) =
      jmem .expectKey (d ++ [(k, .int (digitsToNat (c :: t)))]) cs := by
  by_cases h0 : c = '0'
  · subst h0
    have ht0 := hz rfl
    subst ht0
    simp only [List.nil_append]
    rw [jmem_expectVal_zero, jmem_inZero_comma,
      show digitsToNat ['0'] = 0 from by decide]
    norm_num
  · rw [jmem_expectVal_digit _ _ _ _ hc h0, jmem_inNum_run t ht, digitsToNat_cons,
      jmem_inNum_comma]

/-- Decoding a valid integer literal at a value position followed by the final
closing brace records its value and ends the object. -/
theorem jmem_intVal_close (k : List Char) (d : PyDict) (c : Char) (t : List Char)
    (hc : c.isDigit = true) (ht : ∀ x ∈ t, x.isDigit = true) (hz : c = '0' → t = []) :
    jmem (.expectVal k) d (c :: (t ++ ['\x7d'])) =
      some (d ++ [(k, .int (digitsToNat (c :: t)))]) := by
  by_cases h0 : c = '0'
  · subst h0
    have ht0 := hz rfl
    subst ht0
    simp only [List.nil_append]
    rw [jmem_expectVal_zero, jmem_inZero_close,
      show digitsToNat ['0'] = 0 from by decide]
    norm_num
  · rw [jmem_expectVal_digit _ _ _ _ hc h0, jmem_inNum_run t ht, digitsToNat_cons,
      jmem_inNum_close]

/-- Decoding the interior of the embedded click object produces exactly the
click dict with the two decimal coordinates. -/
theorem jmem_clickObj (ds1 ds2 : List Char)
    (h1 : jsonIntLit ds1 = true) (h2 : jsonIntLit ds2 = true) :
    jmem .firstKey [] (jInterior ds1 ds2 ++ ['\x7d']) =
      some [(strL "action", .str (strL "click")),
            (strL "x", .int (digitsToNat ds1)),
            (strL "y", .int (digitsToNat ds2))] := by
  obtain ⟨c1, t1, rfl, hc1, ht1, hz1⟩ := jsonIntLit_facts ds1 h1
  obtain ⟨c2, t2, rfl, hc2, ht2, hz2⟩ := jsonIntLit_facts ds2 h2
  have hshape : jInterior (c1 :: t1) (c2 :: t2) ++ ['\x7d'] =
      strL "\"action\":\"click\",\"x\":" ++
        (c1 :: (t1 ++ (',' :: (strL "\"y\":" ++ (c2 :: (t2 ++ ['\x7d'])))))) := by
    simp only [jInterior, List.append_assoc, List.cons_append]
    rfl
  rw [hshape, jmem_hop1, jmem_intVal_comma _ _ _ _ _ hc1 ht1 hz1, jmem_hop2,
    jmem_intVal_close _ _ _ _ hc2 ht2 hz2]
  simp

/-- An opening brace starts the flat-object decoder. -/
theorem jsonLoadsFlat_open (rest : List Char) :
    jsonLoadsFlat ('\x7b' :: rest) = jmem .firstKey [] rest := rfl

/-- C5 counterexample: the reply embeds the structurally valid click object
with coordinates 1 and 2 in surrounding prose, but the prose mentions the
action schema in an earlier brace block; the regex matches that earlier
block, its decode failure falls through to the heuristics, and the embedded
click object is never decoded — parse_action returns unknown, not the click. -/
theorem c5_counterexample :
    containsSub c5text (clickObj (strL "1") (strL "2")) = true ∧
    parse_action c5text =
      [(strL "action", .str (strL "unknown")), (strL "raw", .str c5text)] ∧
    parse_action c5text ≠
      [(strL "action", .str (strL "click")), (strL "x", .int 1), (strL "y", .int 2)] := by
  refine ⟨by decide, by decide, by decide⟩

/-- C5 amended: for every reply text embedding the structurally valid click
object (its coordinates valid JSON integer literals) in arbitrary surrounding
prose whose leading part contains no opening brace (so the object is the
first block the extraction regex can match), parse_action returns the click
dict with exactly the embedded decimal coordinates, and executing it issues a
single backend click with the default button left and no double click; a
decode failure of the matched block does not short-circuit but falls through
to the heuristics, as the press reply with a malformed leading block shows. -/
theorem c5_amended (p q ds1 ds2 : List Char) (hp : '\x7b' ∉ p)
    (hl1 : jsonIntLit ds1 = true) (hl2 : jsonIntLit ds2 = true) :
    parse_action (p ++ clickObj ds1 ds2 ++ q) =
      [(strL "action", .str (strL "click")),
       (strL "x", .int (digitsToNat ds1)), (strL "y", .int (digitsToNat ds2))] ∧
    (∀ be : BackendCall → Bool,
      be (.click (.int (digitsToNat ds1)) (.int (digitsToNat ds2)) (.str (strL "left"))) = true →
      execute_action be (parse_action (p ++ clickObj ds1 ds2 ++ q)) =
        .ok (true, [.click (.int (digitsToNat ds1)) (.int (digitsToNat ds2))
          (.str (strL "left"))])) ∧
    parse_action (strL "\x7bbad \"action\"\x7d press: tab") =
      [(strL "action", .str (strL "key")), (strL "key", .str (strL "tab"))] := by
  have hd1 : ∀ x ∈ ds1, x.isDigit = true := jsonIntLit_digits ds1 hl1
  have hd2 : ∀ x ∈ ds2, x.isDigit = true := jsonIntLit_digits ds2 hl2
  have hinner : ∀ c ∈ jInterior ds1 ds2, c ≠ '\x7b' ∧ c ≠ '\x7d' := by
    intro c hc
    have hconc : ∀ x ∈ (strL "\"action\":\"click\",\"x\":" : List Char),
        x ≠ '\x7b' ∧ x ≠ '\x7d' := by decide
    have hconc2 : ∀ x ∈ (strL ",\"y\":" : List Char), x ≠ '\x7b' ∧ x ≠ '\x7d' := by decide
    simp only [jInterior, List.mem_append] at hc
    rcases hc with ((hA | hd) | hB) | hd
    · exact hconc c hA
    · obtain ⟨-, -, -, -, -, -, hx, hy, -⟩ := digit_facts c (hd1 c hd)
      exact ⟨hx, hy⟩
    · exact hconc2 c hB
    · obtain ⟨-, -, -, -, -, -, hx, hy, -⟩ := digit_facts c (hd2 c hd)
      exact ⟨hx, hy⟩
  have hact : containsSub (jInterior ds1 ds2) actionPat = true :=
    containsSub_of_prefix _ _ rfl
  have hfind : jsonFind (p ++ clickObj ds1 ds2 ++ q) =
      some ('\x7b' :: jInterior ds1 ds2 ++ ['\x7d']) := by
    rw [List.append_assoc]
    rw [jsonFind_skip p _ (fun c hcp he => hp (he ▸ hcp))]
    have hsh : clickObj ds1 ds2 ++ q =
        '\x7b' :: (jInterior ds1 ds2 ++ '\x7d' :: q) := by
      simp [clickObj]
    rw [hsh]
    exact jsonFind_obj _ _ hinner hact
  have hload : jsonLoadsFlat ('\x7b' :: jInterior ds1 ds2 ++ ['\x7d']) =
      some [(strL "action", .str (strL "click")),
            (strL "x", .int (digitsToNat ds1)),
            (strL "y", .int (digitsToNat ds2))] := by
    have hsh : ('\x7b' :: jInterior ds1 ds2 ++ ['\x7d'] : List Char) =
        '\x7b' :: (jInterior ds1 ds2 ++ ['\x7d']) := by simp
    rw [hsh, jsonLoadsFlat_open]
    exact jmem_clickObj ds1 ds2 hl1 hl2
  have hparse : parse_action (p ++ clickObj ds1 ds2 ++ q) =
      [(strL "action", .str (strL "click")),
       (strL "x", .int (digitsToNat ds1)),
       (strL "y", .int (digitsToNat ds2))] := by
    unfold parse_action
    simp only [hfind, hload]
  refine ⟨hparse, fun be hbe => ?_, by decide⟩
  rw [hparse]
  simp +decide [execute_action, action_type, dictGet, getD, truthy, hbe]

/-- C5 amended witness at prose see, coordinates 12 and 3. -/
theorem c5_amended_witness :
    parse_action (strL "see " ++ clickObj (strL "12") (strL "3") ++ strL "!") =
      [(strL "action", PyVal.str (strL "click")), (strL "x", PyVal.int 12),
       (strL "y", PyVal.int 3)] :=
  (c5_amended (strL "see ") (strL "!") (strL "12") (strL "3") (by decide) (by decide)
    (by decide)).1
